import Mathlib

/-!
Verification development for the k2p capture-and-heuristics pipeline.

Shallow embedding of the Go sources:
  * `CompareImages`, `absUint32`        — kiro/pkg/screenshot/screenshot.go (imageprocessing doc)
  * `findContentBounds`, `CalculateTrimMargins`, `AggregateMinimumMargins`
                                        — internal/imageprocessing (src/unnamed/part_012)
  * `RetryConfig`, `RetryWithBackoff`   — kiro/internal/orchestrator/retry.go
  * `detectPageTurnDirection`           — internal/orchestrator (src/unnamed/part_014)
  * `capturePages` / the capture loop   — internal/orchestrator/orchestrator.go
  * `convertCapturePhase`               — ConvertCurrentBook step 8 (orchestrator.go lines 136-141)

Modelling conventions:
  * Images are total pixel functions with bounds Min = (0,0): every image the
    program compares or trims comes from `png.Decode`, whose bounds origin is (0,0).
  * `float64` similarity scores and thresholds are modelled as rationals; the
    thresholds used by the claims (0.90, 0.95, 0.995) are exact in both systems
    for the sample ratios that arise here.
  * Collaborator calls (capturer, automation driver) are oracles: functions from
    the call index to the outcome the external world produces.
  * Real time advances only across the explicit sleeps (`time.Sleep`); the
    cooperative cancellation signal is a time `cancelAt` at which `ctx.Done()`
    becomes closed, and each `select` on the context observes the current clock.
-/

/-- A Go error value.  Constructors mirror the concrete `fmt.Errorf` shapes the
embedded functions produce; `ctxCanceled` is `ctx.Err()`. -/
inductive GoError where
  | ctxCanceled
  | msg (s : String)
  | wrap (ctxt : String) (cause : GoError)
  | wrapIdx (ctxt : String) (idx : Nat) (cause : GoError)
  | retryExhausted (attempts : Int) (last : GoError)
  | retryExhaustedNil (attempts : Int)
  | pageLimitReached (limit : Nat)
  | directionUndetectable
  | captureFailed (page : Nat) (cause : GoError)
deriving DecidableEq

/-- One decoded pixel, 8-bit channels (Go shifts the 16-bit `RGBA()` values right by 8). -/
structure Pixel where
  r : Nat
  g : Nat
  b : Nat
deriving DecidableEq

/-- A decoded raster image with bounds `(0,0)-(width,height)`. -/
structure GoImage where
  width : Nat
  height : Nat
  pix : Nat → Nat → Pixel

/-- `absUint32` from screenshot.go: absolute difference of two channel values. -/
def absUint32 (a b : Nat) : Nat :=
  if a > b then a - b else b - a

/-- Pixel match test of `CompareImages`: every channel within tolerance 30. -/
def pixelMatches (p q : Pixel) : Bool :=
  absUint32 p.r q.r ≤ 30 && absUint32 p.g q.g ≤ 30 && absUint32 p.b q.b ≤ 30

/-- Sampled coordinates of `CompareImages`: every 10th index below `n`
(the Go loops step by 10 from the zero origin). -/
def samplePoints (n : Nat) : List Nat :=
  (List.range n).filter (fun i => i % 10 == 0)

/-- `CompareImages` (imageprocessing doc in kiro/pkg/screenshot/screenshot.go),
pure core after both PNGs decode.  On a dimension mismatch the Go code runs
`return 0, nil`: similarity 0 and a nil error.  Otherwise it samples every 10th
pixel in each axis and returns the fraction of samples whose channels all differ
by at most 30.  The Go quotient `float64(matchCount)/float64(totalCount)` is the
exact rational `matchCount / totalCount`, built here with `mkRat`. -/
def CompareImages (a b : GoImage) : ℚ × Option GoError :=
  if a.width ≠ b.width ∨ a.height ≠ b.height then (0, none)
  else
    let pts := (samplePoints a.height).flatMap
      (fun y => (samplePoints a.width).map (fun x => (x, y)))
    let matchCount := (pts.filter (fun p => pixelMatches (a.pix p.1 p.2) (b.pix p.1 p.2))).length
    (mkRat matchCount pts.length, none)

/-- Similarity score component of `CompareImages`. -/
def similarityScore (a b : GoImage) : ℚ :=
  (CompareImages a b).1

/-- Corner background classification thresholds of internal/imageprocessing. -/
def blackThreshold : Nat := 60

/-- White classification threshold of internal/imageprocessing. -/
def whiteThreshold : Nat := 195

/-- `isPixelBlack` helper of `findContentBounds`: all channels at or below 60. -/
def isPixelBlack (p : Pixel) : Bool :=
  p.r ≤ blackThreshold && p.g ≤ blackThreshold && p.b ≤ blackThreshold

/-- `isPixelWhite` helper of `findContentBounds`: all channels at or above 195. -/
def isPixelWhite (p : Pixel) : Bool :=
  whiteThreshold ≤ p.r && whiteThreshold ≤ p.g && whiteThreshold ≤ p.b

/-- The `TargetMode` enumeration local to `findContentBounds`. -/
inductive TargetMode where
  | modeNone
  | modeBlack
  | modeWhite
deriving DecidableEq

/-- The four corner pixels `findContentBounds` samples, in source order:
(Min.X,Min.Y), (Max.X-1,Min.Y), (Min.X,Max.Y-1), (Max.X-1,Max.Y-1). -/
def cornerPixels (img : GoImage) : List Pixel :=
  [img.pix 0 0, img.pix (img.width - 1) 0,
   img.pix 0 (img.height - 1), img.pix (img.width - 1) (img.height - 1)]

/-- `blackCornerCount` of `findContentBounds`. -/
def blackCornerCount (img : GoImage) : Nat :=
  (cornerPixels img).countP (fun p => isPixelBlack p)

/-- `whiteCornerCount` of `findContentBounds`.  The Go loop is an
`if black ... else if white ...` chain, so a corner counts as white only when it
is not black (the threshold choice makes the two classes disjoint anyway). -/
def whiteCornerCount (img : GoImage) : Nat :=
  (cornerPixels img).countP (fun p => !isPixelBlack p && isPixelWhite p)

/-- Border colour mode selection of `findContentBounds` (part_012 lines 87-102):
strict majority wins; on a tie the code falls back to black if any corner was
black-ish, then to white if any was white-ish, and only otherwise to no mode. -/
def cornerMode (img : GoImage) : TargetMode :=
  let b := blackCornerCount img
  let w := whiteCornerCount img
  if b > w then .modeBlack
  else if w > b then .modeWhite
  else if b > 0 then .modeBlack
  else if w > 0 then .modeWhite
  else .modeNone

/-- Pixel-versus-mode match used by `isRowRemovable` / `isColRemovable`. -/
def matchesMode (mode : TargetMode) (p : Pixel) : Bool :=
  match mode with
  | .modeBlack => isPixelBlack p
  | .modeWhite => isPixelWhite p
  | .modeNone => false

/-- The `noiseTolerance` constant 0.95 of `findContentBounds`. -/
def noiseTolerance : ℚ := mkRat 95 100

/-- `isRowRemovable`: at least 95% of row `y`'s pixels match the border mode
(the Go test `float64(matchCount)/total >= noiseTolerance` as an exact ratio). -/
def isRowRemovable (img : GoImage) (mode : TargetMode) (y : Nat) : Bool :=
  let matchCount := ((List.range img.width).filter (fun x => matchesMode mode (img.pix x y))).length
  decide (noiseTolerance ≤ mkRat matchCount img.width)

/-- `isColRemovable`: at least 95% of column `x`'s pixels match the border mode. -/
def isColRemovable (img : GoImage) (mode : TargetMode) (x : Nat) : Bool :=
  let matchCount := ((List.range img.height).filter (fun y => matchesMode mode (img.pix x y))).length
  decide (noiseTolerance ≤ mkRat matchCount img.height)

/-- Lookahead of the inward scans (gap 5): bridgeable only when the gap stays
strictly inside the bounds and the five following lines are all removable. -/
def lookAheadOk (rem : Nat → Bool) (limit pos : Nat) : Bool :=
  if limit ≤ pos + 5 then false
  else ([1, 2, 3, 4, 5] : List Nat).all (fun k => rem (pos + k))

/-- Backward lookahead of the max-side scans. -/
def lookBehindOk (rem : Nat → Bool) (lo pos : Nat) : Bool :=
  if pos < lo + 5 then false
  else ([1, 2, 3, 4, 5] : List Nat).all (fun k => rem (pos - k))

/-- Inward scan from the low edge (`minY` / `minX` loops of `findContentBounds`).
`fuel` counts the remaining positions, so `fuel = limit - pos` throughout. -/
def scanForwardAux (rem : Nat → Bool) (limit : Nat) : Nat → Nat → Nat → Nat
  | 0, _, acc => acc
  | fuel + 1, pos, acc =>
    if rem pos then scanForwardAux rem limit fuel (pos + 1) (pos + 1)
    else if lookAheadOk rem limit pos then scanForwardAux rem limit fuel (pos + 1) (pos + 1)
    else acc

/-- Low-edge scan entry point: positions 0,1,…,limit-1, accumulator starts at 0. -/
def scanForward (rem : Nat → Bool) (limit : Nat) : Nat :=
  scanForwardAux rem limit limit 0 0

/-- Inward scan from the high edge (`maxY` / `maxX` loops): positions
`hi-1, hi-2, …, lo`; the running position is `lo + fuel`. -/
def scanBackwardAux (rem : Nat → Bool) (lo : Nat) : Nat → Nat → Nat
  | 0, acc => acc
  | fuel + 1, acc =>
    let pos := lo + fuel
    if rem pos then scanBackwardAux rem lo fuel pos
    else if lookBehindOk rem lo pos then scanBackwardAux rem lo fuel pos
    else acc

/-- High-edge scan entry point: accumulator starts at `hi`. -/
def scanBackward (rem : Nat → Bool) (lo hi : Nat) : Nat :=
  scanBackwardAux rem lo (hi - lo) hi

/-- A Go `image.Rectangle` with the (0,0) origin of decoded PNGs. -/
structure GoRect where
  minX : Nat
  minY : Nat
  maxX : Nat
  maxY : Nat
deriving DecidableEq

/-- Go's `image.Rect` constructor: swaps the coordinates of an axis when given
in the wrong order, producing a well-formed rectangle. -/
def imageRect (x0 y0 x1 y1 : Nat) : GoRect :=
  let xs := if x0 > x1 then (x1, x0) else (x0, x1)
  let ys := if y0 > y1 then (y1, y0) else (y0, y1)
  ⟨xs.1, ys.1, xs.2, ys.2⟩

/-- `findContentBounds` (part_012 lines 44-264): corner-mode selection, then the
four inward scans with noise lookahead.  Returns the zero rectangle when the top
scan consumed the whole image, and the full bounds when no border mode exists. -/
def findContentBounds (img : GoImage) : GoRect :=
  match cornerMode img with
  | .modeNone => ⟨0, 0, img.width, img.height⟩
  | mode =>
    let rowRem := fun y => isRowRemovable img mode y
    let colRem := fun x => isColRemovable img mode x
    let minY := scanForward rowRem img.height
    if img.height ≤ minY then ⟨0, 0, 0, 0⟩
    else
      let maxY := scanBackward rowRem minY img.height
      let minX := scanForward colRem img.width
      let maxX := scanBackward colRem minX img.width
      imageRect minX minY maxX maxY

/-- `TrimMargins` (part_012): per-edge removable border widths, Go `int` fields. -/
structure TrimMargins where
  Top : Int
  Bottom : Int
  Left : Int
  Right : Int
deriving DecidableEq

/-- `CalculateTrimMargins` (part_012 lines 307-317): content bounds minus the
original bounds, whose Min is (0,0) for every decoded PNG. -/
def CalculateTrimMargins (img : GoImage) : TrimMargins :=
  let bounds := findContentBounds img
  ⟨(bounds.minY : Int), (img.height : Int) - (bounds.maxY : Int),
   (bounds.minX : Int), (img.width : Int) - (bounds.maxX : Int)⟩

/-- One step of the margin-aggregation loop (part_012 lines 346-359): each
`if margins[i].edge < minMargins.edge` update keeps the per-edge minimum. -/
def minPerEdge (acc x : TrimMargins) : TrimMargins :=
  ⟨min acc.Top x.Top, min acc.Bottom x.Bottom,
   min acc.Left x.Left, min acc.Right x.Right⟩

/-- `AggregateMinimumMargins` (part_012 lines 337-362): zero margins for an
empty list, otherwise the per-edge minimum starting from the first element. -/
def AggregateMinimumMargins : List TrimMargins → TrimMargins
  | [] => ⟨0, 0, 0, 0⟩
  | m :: rest => rest.foldl minPerEdge m

/-- `RetryConfig` (retry.go lines 10-15).  `MaxAttempts` is a Go `int`; the
delay fields are `time.Duration` values (an `int64` of nanoseconds, modelled
as `Int`) and the multiplier a `float64`, modelled as a rational. -/
structure RetryConfig where
  maxAttempts : Int
  initialDelay : Int
  maxDelay : Int
  multiplier : ℚ

/-- Whether `ctx.Done()` is closed at clock value `now`: the cancellation
signal, once fired at `cancelAt`, stays observable. -/
def ctxDone (cancelAt : Option Int) (now : Int) : Bool :=
  match cancelAt with
  | some t => decide (t ≤ now)
  | none => false

/-- Go's `time.Duration(f)` conversion for a `float64` value already known to
be the rational `q`: truncation toward zero. -/
def durationOfFloat (q : ℚ) : Int :=
  q.num / (q.den : Int)

/-- Backoff update of retry.go lines 52-56:
`delay = time.Duration(float64(delay) * config.Multiplier)`, then cap at
`maxDelay`. -/
def nextDelay (cfg : RetryConfig) (delay : Int) : Int :=
  let d := durationOfFloat ((delay : ℚ) * cfg.multiplier)
  if cfg.maxDelay < d then cfg.maxDelay else d

/-- The wrapped terminal error of retry.go line 60:
`operation failed after %d attempts: %w` around the last error (nil only when
the loop never ran because `MaxAttempts < 1`). -/
def retryFinalError (attempts : Int) : Option GoError → GoError
  | some e => .retryExhausted attempts e
  | none => .retryExhaustedNil attempts

/-- Outcome of one `RetryWithBackoff` invocation: the Go return value, the
number of calls made to `fn`, and the clock value at return (time advances only
across the backoff sleeps). -/
structure RetryResult where
  res : Option GoError
  calls : Nat
  endTime : Int
deriving DecidableEq

/-- Loop of `RetryWithBackoff` (retry.go lines 32-58).  `fuel` is the number of
loop iterations still permitted, i.e. `maxAttempts - attempt + 1`; `fn` maps the
attempt number to the error that call of the operation produces. -/
def retryAux (cancelAt : Option Int) (cfg : RetryConfig) (fn : Nat → Option GoError) :
    Nat → Nat → Int → Int → Nat → Option GoError → RetryResult
  | 0, _, _, now, calls, lastErr =>
    ⟨some (retryFinalError cfg.maxAttempts lastErr), calls, now⟩
  | fuel + 1, attempt, delay, now, calls, _ =>
    if ctxDone cancelAt now then ⟨some .ctxCanceled, calls, now⟩
    else
      match fn attempt with
      | none => ⟨none, calls + 1, now⟩
      | some e =>
        match fuel with
        | 0 => ⟨some (retryFinalError cfg.maxAttempts (some e)), calls + 1, now⟩
        | f + 1 =>
          retryAux cancelAt cfg fn (f + 1) (attempt + 1)
            (nextDelay cfg delay) (now + delay) (calls + 1) (some e)

/-- `RetryWithBackoff` (retry.go lines 28-61): attempts start at 1 with the
initial delay, the clock at 0 and no calls made. -/
def RetryWithBackoff (cancelAt : Option Int) (cfg : RetryConfig) (fn : Nat → Option GoError) :
    RetryResult :=
  retryAux cancelAt cfg fn cfg.maxAttempts.toNat 1 cfg.initialDelay 0 0 none

/-- The 0.90 direction-detection threshold of `detectPageTurnDirection`. -/
def similarityChangeThreshold : ℚ := mkRat 90 100

/-- The 0.995 end-of-book threshold of `capturePages` (orchestrator.go line 411). -/
def endOfBookThreshold : ℚ := mkRat 995 1000

/-- `true` when some adjacent pair in the list compares below threshold `t` —
the `rightChanged` / `leftChanged` loops of `detectPageTurnDirection`, which
break at the first pair whose similarity is `< t`. -/
def anyAdjacentBelow (t : ℚ) : List GoImage → Bool
  | a :: b :: rest => decide (similarityScore a b < t) || anyAdjacentBelow t (b :: rest)
  | _ => false

/-- `true` when every adjacent pair in the list compares at or above `t` — the
`allIdentical` loop of `capturePages` end detection, which clears the flag at
the first pair whose similarity is `< t`. -/
def allAdjacentAtLeast (t : ℚ) : List GoImage → Bool
  | a :: b :: rest => decide (t ≤ similarityScore a b) && allAdjacentAtLeast t (b :: rest)
  | _ => true

/-- Result of one press-and-capture probe pass (the three-iteration loops of
`detectPageTurnDirection`): the accumulated capture list or the first wrapped
failure, plus how many page-turn inputs were issued and captures attempted. -/
structure SideResult where
  res : Except GoError (List GoImage)
  presses : Nat
  captures : Nat

/-- One direction's probe loop (part_014 lines 54-87 / 131-164): press the
arrow, wait, capture, append; any press or capture failure (already
retry-wrapped by the oracle) aborts the whole detection with a wrapped error. -/
def probeSideAux (press : Nat → Option GoError) (capI : Nat → Except GoError GoImage)
    (pressCtx capCtx : String) :
    Nat → Nat → List GoImage → Nat → Nat → SideResult
  | 0, _, paths, p, c => ⟨.ok paths, p, c⟩
  | fuel + 1, i, paths, p, c =>
    match press i with
    | some e => ⟨.error (.wrap pressCtx e), p + 1, c⟩
    | none =>
      match capI i with
      | .error e => ⟨.error (.wrapIdx capCtx i e), p + 1, c + 1⟩
      | .ok img => probeSideAux press capI pressCtx capCtx fuel (i + 1) (paths ++ [img]) (p + 1) (c + 1)

/-- Outcome of `detectPageTurnDirection`: the Go return value (direction string
and captured images, or the error) together with the per-direction press and
capture counts the run performed. -/
structure ProbeOutcome where
  result : Except GoError (String × List GoImage)
  rightPresses : Nat
  rightCaptures : Nat
  leftPresses : Nat
  leftCaptures : Nat

/-- `detectPageTurnDirection` (part_014 lines 18-202).  Oracles: `cover` is the
retry-wrapped activating capture of the baseline; `pressR`/`capR` and
`pressL`/`capL` give the outcome of the i-th press and of the capture taken
after it.  The code presses each direction three times, capturing after every
press, and only afterwards compares consecutive captures against the 0.90
threshold; a changed pair confirms that direction and returns every captured
image; when neither direction changed anything it returns the
could-not-detect error. -/
def detectPageTurnDirection (cover : Except GoError GoImage)
    (pressR : Nat → Option GoError) (capR : Nat → Except GoError GoImage)
    (pressL : Nat → Option GoError) (capL : Nat → Except GoError GoImage) :
    ProbeOutcome :=
  match cover with
  | .error e => ⟨.error (.wrap "failed to capture cover" e), 0, 0, 0, 0⟩
  | .ok coverImg =>
    let r := probeSideAux pressR capR "failed to press right arrow" "failed to capture right"
      3 1 [coverImg] 0 0
    match r.res with
    | .error e => ⟨.error e, r.presses, r.captures, 0, 0⟩
    | .ok rightPaths =>
      if anyAdjacentBelow similarityChangeThreshold rightPaths then
        ⟨.ok ("right", rightPaths), r.presses, r.captures, 0, 0⟩
      else
        let l := probeSideAux pressL capL "failed to press left arrow" "failed to capture left"
          3 1 [rightPaths.getLastD coverImg] 0 0
        match l.res with
        | .error e => ⟨.error e, r.presses, r.captures, l.presses, l.captures⟩
        | .ok leftPaths =>
          if anyAdjacentBelow similarityChangeThreshold leftPaths then
            ⟨.ok ("left", leftPaths), r.presses, r.captures, l.presses, l.captures⟩
          else
            ⟨.error .directionUndetectable, r.presses, r.captures, l.presses, l.captures⟩

/-- End-of-book test of `capturePages` (orchestrator.go lines 384-432): with at
least five screenshots, all four adjacent pairs among the last five must score
at least 0.995 (the code clears the flag when a similarity is `< 0.995`). -/
def endOfBookWindow (shots : List GoImage) : Bool :=
  allAdjacentAtLeast endOfBookThreshold (shots.drop (shots.length - 5))

/-- Return value of `capturePages`: page counter, screenshot sequence,
aggregated margins, per-page margins, and the error slot. -/
structure CaptureOutcome where
  pageCount : Nat
  screenshots : List GoImage
  margins : TrimMargins
  allMargins : List TrimMargins
  err : Option GoError

/-- The per-page loop of `capturePages` (orchestrator.go lines 350-447), with
`maxPages = 1000`.  `fuel` is the number of iterations the `pageNum <= maxPages`
condition still allows (`1001 - pageNum`); running out reproduces lines 451-454.
Oracles: `cap pageNum` is the retry-wrapped `CaptureWithoutActivation` outcome,
`turn direction pageNum` the retry-wrapped `TurnNextPage` outcome.  The clock
`now` advances by `delay` across the inter-page `time.Sleep`. -/
def captureLoop (cap : Nat → Except GoError GoImage) (turn : String → Nat → Option GoError)
    (direction : String) (delay : Int) (cancelAt : Option Int) :
    Nat → Nat → Int → List GoImage → List TrimMargins → CaptureOutcome
  | 0, pageNum, _, shots, allM =>
    ⟨pageNum - 1, shots, AggregateMinimumMargins allM, allM, some (.pageLimitReached 1000)⟩
  | fuel + 1, pageNum, now, shots, allM =>
    if ctxDone cancelAt now then
      ⟨pageNum - 1, shots, AggregateMinimumMargins allM, allM, some .ctxCanceled⟩
    else
      match cap pageNum with
      | .error e =>
        ⟨pageNum - 1, shots, AggregateMinimumMargins allM, allM, some (.captureFailed pageNum e)⟩
      | .ok img =>
        let allM2 := allM ++ [CalculateTrimMargins img]
        let shots2 := shots ++ [img]
        if 5 ≤ shots2.length ∧ endOfBookWindow shots2 = true then
          let shots3 := shots2.take (shots2.length - 5)
          let allM3 := if 5 ≤ allM2.length then allM2.take (allM2.length - 5) else allM2
          ⟨pageNum, shots3, AggregateMinimumMargins allM3, allM3, none⟩
        else
          match turn direction pageNum with
          | some e =>
            ⟨pageNum, shots2, AggregateMinimumMargins allM2, allM2,
              some (.wrap "failed to turn page after retries" e)⟩
          | none =>
            captureLoop cap turn direction delay cancelAt fuel (pageNum + 1) (now + delay) shots2 allM2

/-- `capturePages` after direction resolution (orchestrator.go lines 337-459):
the activation capture (lines 342-345, `activation` is its retry-wrapped
outcome), then the page loop starting at page 1 with the detection images
already in the sequence. -/
def capturePagesCore (direction : String) (initialShots : List GoImage)
    (activation : Option GoError) (cap : Nat → Except GoError GoImage)
    (turn : String → Nat → Option GoError) (delay : Int) (cancelAt : Option Int) :
    CaptureOutcome :=
  match activation with
  | some e => ⟨0, [], ⟨0, 0, 0, 0⟩, [], some (.wrap "failed to activate Kindle" e)⟩
  | none => captureLoop cap turn direction delay cancelAt 1000 1 0 initialShots []

/-- `capturePages` (orchestrator.go lines 289-459).  Direction resolution
(lines 313-335): with `PageTurnKey = "left"` the probe is skipped; otherwise a
successful, non-empty detection supplies the direction and its images become
the first screenshots, while any detection error or empty direction falls back
to `"right"` with no initial images. -/
def capturePages (probe : Except GoError (String × List GoImage)) (pageTurnKey : String)
    (activation : Option GoError) (cap : Nat → Except GoError GoImage)
    (turn : String → Nat → Option GoError) (delay : Int) (cancelAt : Option Int) :
    CaptureOutcome :=
  if pageTurnKey = "left" then
    capturePagesCore "left" [] activation cap turn delay cancelAt
  else
    match probe with
    | .ok (d, imgs) =>
      if d = "" then capturePagesCore "right" [] activation cap turn delay cancelAt
      else capturePagesCore d imgs activation cap turn delay cancelAt
    | .error _ => capturePagesCore "right" [] activation cap turn delay cancelAt

/-- Step 8 of `ConvertCurrentBook` (orchestrator.go lines 136-141): a failing
`capturePages` aborts the conversion with a wrapped error, discarding the
partial outcome; on success the page count and screenshots flow onward. -/
def convertCapturePhase (out : CaptureOutcome) : Except GoError (Nat × List GoImage) :=
  match out.err with
  | some e => .error (.wrap "failed to capture pages" e)
  | none => .ok (out.pageCount, out.screenshots)

/-- `true` when every adjacent pair compares strictly above `t`: the reading
"all four exceed 0.995" used by the end-detection claim (strictly stronger than
the code's `≥` test, so it implies `allAdjacentAtLeast`). -/
def allAdjacentAbove (t : ℚ) : List GoImage → Bool
  | a :: b :: rest => decide (t < similarityScore a b) && allAdjacentAbove t (b :: rest)
  | _ => true

/-- The screenshot sequence after `k` successful captures from stream `img`
(pages are 1-indexed). -/
def prefixImgs (img : Nat → GoImage) (k : Nat) : List GoImage :=
  (List.range k).map (fun i => img (i + 1))

/-- A uniform image: every pixel has the same gray level `c`. -/
def solidImage (c w h : Nat) : GoImage :=
  ⟨w, h, fun _ _ => ⟨c, c, c⟩⟩

/-- 1×1 black image. -/
def imgBlack1 : GoImage := solidImage 0 1 1

/-- 1×1 dark-gray image (level 100), dissimilar to both neighbours in the
end-detection scenario. -/
def imgGrayA : GoImage := solidImage 100 1 1

/-- 1×1 light-gray image (level 200). -/
def imgGrayB : GoImage := solidImage 200 1 1

/-- 1×1 white image. -/
def imgWhite1 : GoImage := solidImage 255 1 1

/-- 2×1 black image — a dimension-mismatch partner for `imgBlack1`. -/
def imgWide : GoImage := solidImage 0 2 1

/-- 6×6 image, left half black and right half white: two black-ish and two
white-ish corners, a tie. -/
def halfSplitImg : GoImage :=
  ⟨6, 6, fun x _ => if x < 3 then ⟨0, 0, 0⟩ else ⟨255, 255, 255⟩⟩

/-- 3×3 mid-gray image: no corner classifies as black-ish or white-ish. -/
def grayImg : GoImage := solidImage 128 3 3

/-- 4×4 all-black image: every row and column is removable. -/
def blackSquare : GoImage := solidImage 0 4 4

/-- A demonstration retry configuration: 3 attempts, 100ns initial delay,
2000ns cap, multiplier 2. -/
def retryCfgDemo : RetryConfig := ⟨3, 100, 2000, 2⟩

/-- An operation that fails on every invocation. -/
def alwaysFail : Nat → Option GoError := fun _ => some (.msg "boom")

/-- A page-turn oracle that always succeeds. -/
def turnOk : String → Nat → Option GoError := fun _ _ => none

/-- Capture stream of the end-detection scenario: three pairwise-dissimilar
images followed by pixel-identical white screens from page 4 on. -/
def endBookStream : Nat → Except GoError GoImage := fun n =>
  .ok (if n = 1 then imgBlack1 else if n = 2 then imgGrayA
       else if n = 3 then imgGrayB else imgWhite1)

/-- The end-detection scenario run: probe skipped (`PageTurnKey = "left"`),
activation fine, captures from `endBookStream`, page turns succeed, no
cancellation. -/
def endBookRun : CaptureOutcome :=
  capturePages (.error (.msg "unused")) "left" none endBookStream turnOk 0 none

/-- Probe run against a completely unresponsive target: the baseline and every
capture after every press, in both directions, is the same black image. -/
def stuckProbe : ProbeOutcome :=
  detectPageTurnDirection (.ok imgBlack1) (fun _ => none) (fun _ => .ok imgBlack1)
    (fun _ => none) (fun _ => .ok imgBlack1)

/-- `capturePages` continuing after the failed probe of `stuckProbe`: the
static target keeps yielding the identical image, so end detection fires at
page 5. -/
def fallbackRun : CaptureOutcome :=
  capturePages stuckProbe.result "auto" none (fun _ => .ok imgBlack1) turnOk 0 none

/-- Probe run in which the very first forward press already changes the page
(black baseline, white captures). -/
def quickProbe : ProbeOutcome :=
  detectPageTurnDirection (.ok imgBlack1) (fun _ => none) (fun _ => .ok imgWhite1)
    (fun _ => none) (fun _ => .ok imgBlack1)

/-- Wraps a pure capture stream for the probe oracles: capture `i` always
succeeds and yields `f i`. -/
def probeCapOf (f : Nat → GoImage) : Nat → Except GoError GoImage :=
  fun i => .ok (f i)

/-- Capture stream that alternates between two dissimilar images, so no
five-image window is ever identical and the loop runs into the page limit. -/
def alternatingImg : Nat → GoImage := fun n =>
  if n % 2 = 0 then imgWhite1 else imgBlack1

/-- The page-limit scenario run: alternating captures, probe skipped, page
turns succeed, no cancellation — 1000 pages, then the safety ceiling. -/
def limitRun : CaptureOutcome :=
  capturePages (.error (.msg "unused")) "left" none
    (fun n => .ok (alternatingImg n)) turnOk 0 none

/-- C2 (amended): for every pair of images whose bounds differ, `CompareImages`
returns similarity 0 together with a nil error — the dimension-mismatch branch
is `return 0, nil`, not an explicit incomparable error. -/
theorem c2_mismatch_zero_nil (a b : GoImage)
    (h : a.width ≠ b.width ∨ a.height ≠ b.height) :
    CompareImages a b = (0, none) := by
  unfold CompareImages
  rw [if_pos h]

/-- C2 counterexample: a 1×1 and a 2×1 image differ in width, yet
`CompareImages` yields the pair `(0, none)` — a plain similarity score of 0
with no error, refuting the claimed explicit incomparable error signal. -/
theorem c2_mismatch_counterexample :
    imgBlack1.width ≠ imgWide.width ∧
      CompareImages imgBlack1 imgWide = ((0 : ℚ), (none : Option GoError)) :=
  ⟨by decide, by decide⟩

/-- C2 witness: the amended theorem applied to the concrete mismatched pair. -/
theorem c2_mismatch_witness : CompareImages imgBlack1 imgWide = (0, none) :=
  c2_mismatch_zero_nil imgBlack1 imgWide (Or.inl (by decide))

/-- One-step unfolding of the retry loop body. -/
theorem retryAux_succ (c : Option Int) (cfg : RetryConfig) (fn : Nat → Option GoError)
    (f a : Nat) (d n : Int) (k : Nat) (l : Option GoError) :
    retryAux c cfg fn (f + 1) a d n k l =
      if ctxDone c n then ⟨some .ctxCanceled, k, n⟩
      else
        match fn a with
        | none => ⟨none, k + 1, n⟩
        | some e =>
          match f with
          | 0 => ⟨some (retryFinalError cfg.maxAttempts (some e)), k + 1, n⟩
          | g + 1 =>
            retryAux c cfg fn (g + 1) (a + 1) (nextDelay cfg d) (n + d) (k + 1) (some e) := by
  conv_lhs => rw [retryAux.eq_def]

/-- The context is never done when no cancellation signal exists. -/
theorem ctxDone_none (now : Int) : ctxDone none now = false := rfl

/-- Helper for C3: with no cancellation and an always-failing operation, the
retry loop consumes all its fuel, counting one call per iteration, and ends
with the wrapped error around the last failure. -/
theorem retryAux_all_fail (cfg : RetryConfig) (fn : Nat → Option GoError)
    (h : ∀ k, fn k ≠ none) :
    ∀ (fuel attempt : Nat) (delay now : Int) (calls : Nat) (last : Option GoError),
      1 ≤ fuel →
      (retryAux none cfg fn fuel attempt delay now calls last).calls = calls + fuel ∧
      (retryAux none cfg fn fuel attempt delay now calls last).res
        = some (retryFinalError cfg.maxAttempts (fn (attempt + fuel - 1))) := by
  intro fuel
  induction fuel with
  | zero => intro attempt delay now calls last hf; exact absurd hf (by omega)
  | succ f ih =>
    intro attempt delay now calls last _
    obtain ⟨e, he⟩ : ∃ e, fn attempt = some e := by
      cases hfa : fn attempt with
      | none => exact absurd hfa (h attempt)
      | some e => exact ⟨e, rfl⟩
    rw [retryAux_succ, ctxDone_none, if_neg (by decide : ¬((false : Bool) = true)), he]
    cases f with
    | zero => simp [he]
    | succ g =>
      obtain ⟨ihc, ihr⟩ :=
        ih (attempt + 1) (nextDelay cfg delay) (now + delay) (calls + 1) (some e) (by omega)
      have hidx : attempt + 1 + (g + 1) - 1 = attempt + (g + 1 + 1) - 1 := by omega
      rw [hidx] at ihr
      exact ⟨by rw [ihc]; omega, ihr⟩

/-- C3 (confirmed): for every retry configuration with `maxAttempts ≥ 1` and
every operation failing on every invocation, `RetryWithBackoff` without a
cancellation signal calls the operation exactly `maxAttempts` times and returns
the wrapped error naming the attempt count and the last underlying error. -/
theorem c3_retry_exact_attempt_count (cfg : RetryConfig) (fn : Nat → Option GoError)
    (hmax : 1 ≤ cfg.maxAttempts) (h : ∀ k, fn k ≠ none) :
    (RetryWithBackoff none cfg fn).calls = cfg.maxAttempts.toNat ∧
    ∃ e, fn cfg.maxAttempts.toNat = some e ∧
      (RetryWithBackoff none cfg fn).res
        = some (.retryExhausted cfg.maxAttempts e) := by
  have hfuel : 1 ≤ cfg.maxAttempts.toNat := by omega
  obtain ⟨hc, hr⟩ :=
    retryAux_all_fail cfg fn h cfg.maxAttempts.toNat 1 cfg.initialDelay 0 0 none hfuel
  obtain ⟨e, he⟩ : ∃ e, fn cfg.maxAttempts.toNat = some e := by
    cases hfa : fn cfg.maxAttempts.toNat with
    | none => exact absurd hfa (h _)
    | some e => exact ⟨e, rfl⟩
  have hidx : 1 + cfg.maxAttempts.toNat - 1 = cfg.maxAttempts.toNat := by omega
  rw [hidx, he] at hr
  refine ⟨?_, e, he, ?_⟩
  · show (retryAux none cfg fn cfg.maxAttempts.toNat 1 cfg.initialDelay 0 0 none).calls = _
    rw [hc]; omega
  · show (retryAux none cfg fn cfg.maxAttempts.toNat 1 cfg.initialDelay 0 0 none).res = _
    rw [hr]; rfl

/-- C3 witness: the demo configuration (3 attempts) with an always-failing
operation — exactly 3 calls, and the wrapped error carries attempt count 3 and
the last failure. -/
theorem c3_retry_witness :
    (RetryWithBackoff none retryCfgDemo alwaysFail).calls = 3 ∧
    ∃ e, alwaysFail 3 = some e ∧
      (RetryWithBackoff none retryCfgDemo alwaysFail).res
        = some (.retryExhausted 3 e) :=
  c3_retry_exact_attempt_count retryCfgDemo alwaysFail (by decide)
    (fun k => by simp [alwaysFail])

/-- One-step unfolding of the capture loop body. -/
theorem captureLoop_succ (cap : Nat → Except GoError GoImage)
    (turn : String → Nat → Option GoError) (dir : String) (delay : Int)
    (cAt : Option Int) (fuel pageNum : Nat) (now : Int)
    (shots : List GoImage) (allM : List TrimMargins) :
    captureLoop cap turn dir delay cAt (fuel + 1) pageNum now shots allM =
      if ctxDone cAt now then
        ⟨pageNum - 1, shots, AggregateMinimumMargins allM, allM, some .ctxCanceled⟩
      else
        match cap pageNum with
        | .error e =>
          ⟨pageNum - 1, shots, AggregateMinimumMargins allM, allM,
            some (.captureFailed pageNum e)⟩
        | .ok img =>
          let allM2 := allM ++ [CalculateTrimMargins img]
          let shots2 := shots ++ [img]
          if 5 ≤ shots2.length ∧ endOfBookWindow shots2 = true then
            let shots3 := shots2.take (shots2.length - 5)
            let allM3 := if 5 ≤ allM2.length then allM2.take (allM2.length - 5) else allM2
            ⟨pageNum, shots3, AggregateMinimumMargins allM3, allM3, none⟩
          else
            match turn dir pageNum with
            | some e =>
              ⟨pageNum, shots2, AggregateMinimumMargins allM2, allM2,
                some (.wrap "failed to turn page after retries" e)⟩
            | none =>
              captureLoop cap turn dir delay cAt fuel (pageNum + 1) (now + delay) shots2 allM2 := by
  conv_lhs => rw [captureLoop.eq_def]

/-- C6 (amended): a cancellation observed at a context check makes both loops
return the distinguishable cancellation error with no further attempt: fired
at or before the start, `RetryWithBackoff` returns it with zero calls; fired
during the first backoff sleep, the sleep still completes and the error is
returned at its end (time `initialDelay`, not the firing time) after exactly
one call; and a fired signal at the top of a capture-loop iteration ends the
loop with the cancellation error and no further capture. -/
theorem c6_cancellation_no_further_attempts :
    (∀ (cfg : RetryConfig) (fn : Nat → Option GoError) (t : Int),
      t ≤ 0 → 1 ≤ cfg.maxAttempts →
      RetryWithBackoff (some t) cfg fn = ⟨some .ctxCanceled, 0, 0⟩) ∧
    (∀ (cfg : RetryConfig) (fn : Nat → Option GoError) (t : Int) (e : GoError),
      0 < t → t ≤ cfg.initialDelay → 2 ≤ cfg.maxAttempts → fn 1 = some e →
      RetryWithBackoff (some t) cfg fn = ⟨some .ctxCanceled, 1, cfg.initialDelay⟩) ∧
    (∀ (cap : Nat → Except GoError GoImage) (turn : String → Nat → Option GoError)
      (dir : String) (delay t : Int) (fuel pageNum : Nat) (now : Int)
      (shots : List GoImage) (allM : List TrimMargins),
      1 ≤ fuel → t ≤ now →
      captureLoop cap turn dir delay (some t) fuel pageNum now shots allM
        = ⟨pageNum - 1, shots, AggregateMinimumMargins allM, allM, some .ctxCanceled⟩) := by
  refine ⟨?_, ?_, ?_⟩
  · intro cfg fn t ht hmax
    obtain ⟨f, hf⟩ : ∃ f, cfg.maxAttempts.toNat = f + 1 :=
      ⟨cfg.maxAttempts.toNat - 1, by omega⟩
    show retryAux (some t) cfg fn cfg.maxAttempts.toNat 1 cfg.initialDelay 0 0 none = _
    rw [hf, retryAux_succ]
    rw [show ctxDone (some t) 0 = true by simp [ctxDone]; omega]
    rfl
  · intro cfg fn t e ht htd hmax hfn
    obtain ⟨f, hf⟩ : ∃ f, cfg.maxAttempts.toNat = f + 1 + 1 :=
      ⟨cfg.maxAttempts.toNat - 2, by omega⟩
    show retryAux (some t) cfg fn cfg.maxAttempts.toNat 1 cfg.initialDelay 0 0 none = _
    rw [hf, retryAux_succ]
    rw [show ctxDone (some t) 0 = false by simp [ctxDone]; omega]
    rw [if_neg (by decide : ¬((false : Bool) = true)), hfn]
    show retryAux (some t) cfg fn (f + 1) 2 (nextDelay cfg cfg.initialDelay)
      (0 + cfg.initialDelay) 1 (some e) = _
    rw [retryAux_succ]
    rw [show ctxDone (some t) (0 + cfg.initialDelay) = true by simp [ctxDone]; omega]
    rw [if_pos rfl, zero_add]
  · intro cap turn dir delay t fuel pageNum now shots allM hfuel ht
    obtain ⟨f, hf⟩ : ∃ f, fuel = f + 1 := ⟨fuel - 1, by omega⟩
    rw [hf, captureLoop_succ]
    rw [show ctxDone (some t) now = true by simp [ctxDone]; omega]
    rfl

/-- C6 counterexample: the cancellation signal fires at time 50, during the
first 100ns backoff sleep, yet the run returns only at time 100 — after the
non-interruptible `time.Sleep` completes — so the return is not immediate,
although no second attempt is made. -/
theorem c6_sleep_not_interruptible_counterexample :
    RetryWithBackoff (some 50) retryCfgDemo alwaysFail = ⟨some .ctxCanceled, 1, 100⟩ ∧
    (50 : Int) < (RetryWithBackoff (some 50) retryCfgDemo alwaysFail).endTime :=
  ⟨by decide, by decide⟩

/-- C6 witness: the amended theorem applied at concrete inputs — cancellation
at time 0 before any attempt, cancellation at time 50 inside the first sleep,
and a fired signal at the top of a capture-loop iteration. -/
theorem c6_cancellation_witness :
    RetryWithBackoff (some 0) retryCfgDemo alwaysFail = ⟨some .ctxCanceled, 0, 0⟩ ∧
    RetryWithBackoff (some 50) retryCfgDemo alwaysFail = ⟨some .ctxCanceled, 1, 100⟩ ∧
    captureLoop (fun _ => .ok imgBlack1) turnOk "right" 0 (some 0) 1 1 0 [] []
      = ⟨0, [], AggregateMinimumMargins [], [], some .ctxCanceled⟩ :=
  ⟨c6_cancellation_no_further_attempts.1 retryCfgDemo alwaysFail 0 (by decide) (by decide),
   c6_cancellation_no_further_attempts.2.1 retryCfgDemo alwaysFail 50 (.msg "boom")
     (by decide) (by decide) (by decide) rfl,
   c6_cancellation_no_further_attempts.2.2 (fun _ => .ok imgBlack1) turnOk "right" 0 0 1 1 0 [] []
     (by decide) (by decide)⟩

/-- Helper for C8: the aggregation fold never exceeds its accumulator on any edge. -/
theorem foldl_minPerEdge_le_acc :
    ∀ (rest : List TrimMargins) (acc : TrimMargins),
      (rest.foldl minPerEdge acc).Top ≤ acc.Top ∧
      (rest.foldl minPerEdge acc).Bottom ≤ acc.Bottom ∧
      (rest.foldl minPerEdge acc).Left ≤ acc.Left ∧
      (rest.foldl minPerEdge acc).Right ≤ acc.Right := by
  intro rest
  induction rest with
  | nil => exact fun acc => ⟨le_refl _, le_refl _, le_refl _, le_refl _⟩
  | cons x xs ih =>
    intro acc
    obtain ⟨h1, h2, h3, h4⟩ := ih (minPerEdge acc x)
    refine ⟨le_trans h1 ?_, le_trans h2 ?_, le_trans h3 ?_, le_trans h4 ?_⟩ <;>
      exact min_le_left _ _

/-- Helper for C8: the aggregation fold never exceeds any list member on any edge. -/
theorem foldl_minPerEdge_le_mem :
    ∀ (rest : List TrimMargins) (acc m : TrimMargins), m ∈ rest →
      (rest.foldl minPerEdge acc).Top ≤ m.Top ∧
      (rest.foldl minPerEdge acc).Bottom ≤ m.Bottom ∧
      (rest.foldl minPerEdge acc).Left ≤ m.Left ∧
      (rest.foldl minPerEdge acc).Right ≤ m.Right := by
  intro rest
  induction rest with
  | nil => intro acc m hm; cases hm
  | cons x xs ih =>
    intro acc m hm
    rcases List.mem_cons.mp hm with hx | hxs
    · subst hx
      obtain ⟨h1, h2, h3, h4⟩ := foldl_minPerEdge_le_acc xs (minPerEdge acc m)
      refine ⟨le_trans h1 ?_, le_trans h2 ?_, le_trans h3 ?_, le_trans h4 ?_⟩ <;>
        exact min_le_right _ _
    · exact ih (minPerEdge acc x) m hxs

/-- C8 (confirmed): `AggregateMinimumMargins` maps the empty list to all-zero
margins rather than failing, and for a non-empty list the aggregate on each of
the four edges is at most the minimum of that edge's values across the list
(at most every member's value). -/
theorem c8_aggregate_empty_and_minimum :
    AggregateMinimumMargins [] = ⟨0, 0, 0, 0⟩ ∧
    ∀ (ms : List TrimMargins) (m : TrimMargins), m ∈ ms →
      (AggregateMinimumMargins ms).Top ≤ m.Top ∧
      (AggregateMinimumMargins ms).Bottom ≤ m.Bottom ∧
      (AggregateMinimumMargins ms).Left ≤ m.Left ∧
      (AggregateMinimumMargins ms).Right ≤ m.Right := by
  refine ⟨rfl, ?_⟩
  intro ms m hm
  cases ms with
  | nil => cases hm
  | cons a rest =>
    rcases List.mem_cons.mp hm with ha | hrest
    · subst ha
      exact foldl_minPerEdge_le_acc rest m
    · exact foldl_minPerEdge_le_mem rest a m hrest

/-- C8 witness: the aggregate of a concrete two-element margin list stays at or
below the second member on every edge. -/
theorem c8_aggregate_witness :
    (AggregateMinimumMargins [⟨1, 2, 3, 4⟩, ⟨0, 5, 2, 7⟩]).Top ≤ (0 : Int) ∧
    (AggregateMinimumMargins [⟨1, 2, 3, 4⟩, ⟨0, 5, 2, 7⟩]).Bottom ≤ (5 : Int) ∧
    (AggregateMinimumMargins [⟨1, 2, 3, 4⟩, ⟨0, 5, 2, 7⟩]).Left ≤ (2 : Int) ∧
    (AggregateMinimumMargins [⟨1, 2, 3, 4⟩, ⟨0, 5, 2, 7⟩]).Right ≤ (7 : Int) :=
  c8_aggregate_empty_and_minimum.2 [⟨1, 2, 3, 4⟩, ⟨0, 5, 2, 7⟩] ⟨0, 5, 2, 7⟩ (by decide)

/-- Helper for C9: a forward scan never moves past `pos + fuel`. -/
theorem scanForwardAux_le (rem : Nat → Bool) (limit : Nat) :
    ∀ (fuel pos acc : Nat), acc ≤ pos →
      scanForwardAux rem limit fuel pos acc ≤ pos + fuel := by
  intro fuel
  induction fuel with
  | zero => intro pos acc h; simpa [scanForwardAux] using h
  | succ f ih =>
    intro pos acc h
    simp only [scanForwardAux]
    split
    · exact le_trans (ih (pos + 1) (pos + 1) (le_refl _)) (by omega)
    · split
      · exact le_trans (ih (pos + 1) (pos + 1) (le_refl _)) (by omega)
      · omega

/-- Helper for C9: the low-edge scan result stays within the image. -/
theorem scanForward_le (rem : Nat → Bool) (limit : Nat) :
    scanForward rem limit ≤ limit := by
  have := scanForwardAux_le rem limit limit 0 0 (le_refl 0)
  simpa [scanForward] using this

/-- Helper for C9: a backward scan never moves below `lo`. -/
theorem scanBackwardAux_ge (rem : Nat → Bool) (lo : Nat) :
    ∀ (fuel acc : Nat), lo ≤ acc → lo ≤ scanBackwardAux rem lo fuel acc := by
  intro fuel
  induction fuel with
  | zero => intro acc h; simpa [scanBackwardAux] using h
  | succ f ih =>
    intro acc h
    simp only [scanBackwardAux]
    split
    · exact ih (lo + f) (by omega)
    · split
      · exact ih (lo + f) (by omega)
      · exact h

/-- Helper for C9: a backward scan never moves above its starting accumulator
as long as all visited positions stay below `hi`. -/
theorem scanBackwardAux_le (rem : Nat → Bool) (lo hi : Nat) :
    ∀ (fuel acc : Nat), acc ≤ hi → lo + fuel ≤ hi →
      scanBackwardAux rem lo fuel acc ≤ hi := by
  intro fuel
  induction fuel with
  | zero => intro acc h _; simpa [scanBackwardAux] using h
  | succ f ih =>
    intro acc h hf
    simp only [scanBackwardAux]
    split
    · exact ih (lo + f) (by omega) (by omega)
    · split
      · exact ih (lo + f) (by omega) (by omega)
      · exact h

/-- Helper for C9: the high-edge scan result lies between `lo` and `hi`. -/
theorem scanBackward_bounds (rem : Nat → Bool) (lo hi : Nat) (h : lo ≤ hi) :
    lo ≤ scanBackward rem lo hi ∧ scanBackward rem lo hi ≤ hi :=
  ⟨scanBackwardAux_ge rem lo (hi - lo) hi h,
   scanBackwardAux_le rem lo hi (hi - lo) hi (le_refl hi) (by omega)⟩

/-- Helper for C9: `image.Rect` performs no swap on ordered coordinates. -/
theorem imageRect_of_le {x0 y0 x1 y1 : Nat} (hx : x0 ≤ x1) (hy : y0 ≤ y1) :
    imageRect x0 y0 x1 y1 = ⟨x0, y0, x1, y1⟩ := by
  unfold imageRect
  rw [if_neg (by omega), if_neg (by omega)]

/-- Helper for C9: in the scanning branch of `findContentBounds`, the four scan
results are ordered and within the image, so `image.Rect` performs no swap. -/
theorem scanQuad_ordered (img : GoImage) (mode : TargetMode)
    (hne : ¬ (img.height ≤ scanForward (fun y => isRowRemovable img mode y) img.height)) :
    scanForward (fun y => isRowRemovable img mode y) img.height
      ≤ scanBackward (fun y => isRowRemovable img mode y)
          (scanForward (fun y => isRowRemovable img mode y) img.height) img.height ∧
    scanBackward (fun y => isRowRemovable img mode y)
        (scanForward (fun y => isRowRemovable img mode y) img.height) img.height
      ≤ img.height ∧
    scanForward (fun x => isColRemovable img mode x) img.width
      ≤ scanBackward (fun x => isColRemovable img mode x)
          (scanForward (fun x => isColRemovable img mode x) img.width) img.width ∧
    scanBackward (fun x => isColRemovable img mode x)
        (scanForward (fun x => isColRemovable img mode x) img.width) img.width
      ≤ img.width := by
  have hy := scanBackward_bounds (fun y => isRowRemovable img mode y)
    (scanForward (fun y => isRowRemovable img mode y) img.height) img.height (by omega)
  have hxw := scanForward_le (fun x => isColRemovable img mode x) img.width
  have hx := scanBackward_bounds (fun x => isColRemovable img mode x)
    (scanForward (fun x => isColRemovable img mode x) img.width) img.width hxw
  exact ⟨hy.1, hy.2, hx.1, hx.2⟩

/-- Helper for C9: the rectangle `findContentBounds` returns is well formed —
ordered coordinates, inside the image. -/
theorem findContentBounds_ordered (img : GoImage) :
    (findContentBounds img).minY ≤ (findContentBounds img).maxY ∧
    (findContentBounds img).maxY ≤ img.height ∧
    (findContentBounds img).minX ≤ (findContentBounds img).maxX ∧
    (findContentBounds img).maxX ≤ img.width := by
  cases hmode : cornerMode img with
  | modeNone =>
    have h : findContentBounds img = ⟨0, 0, img.width, img.height⟩ := by
      simp [findContentBounds, hmode]
    rw [h]
    exact ⟨Nat.zero_le _, le_refl _, Nat.zero_le _, le_refl _⟩
  | modeBlack =>
    by_cases hempty :
        img.height ≤ scanForward (fun y => isRowRemovable img .modeBlack y) img.height
    · have h : findContentBounds img = ⟨0, 0, 0, 0⟩ := by
        simp only [findContentBounds, hmode]
        rw [if_pos hempty]
      rw [h]
      exact ⟨le_refl _, Nat.zero_le _, le_refl _, Nat.zero_le _⟩
    · obtain ⟨h1, h2, h3, h4⟩ := scanQuad_ordered img .modeBlack hempty
      have h : findContentBounds img =
          ⟨scanForward (fun x => isColRemovable img .modeBlack x) img.width,
           scanForward (fun y => isRowRemovable img .modeBlack y) img.height,
           scanBackward (fun x => isColRemovable img .modeBlack x)
             (scanForward (fun x => isColRemovable img .modeBlack x) img.width) img.width,
           scanBackward (fun y => isRowRemovable img .modeBlack y)
             (scanForward (fun y => isRowRemovable img .modeBlack y) img.height) img.height⟩ := by
        simp only [findContentBounds, hmode]
        rw [if_neg hempty, imageRect_of_le h3 h1]
      rw [h]
      exact ⟨h1, h2, h3, h4⟩
  | modeWhite =>
    by_cases hempty :
        img.height ≤ scanForward (fun y => isRowRemovable img .modeWhite y) img.height
    · have h : findContentBounds img = ⟨0, 0, 0, 0⟩ := by
        simp only [findContentBounds, hmode]
        rw [if_pos hempty]
      rw [h]
      exact ⟨le_refl _, Nat.zero_le _, le_refl _, Nat.zero_le _⟩
    · obtain ⟨h1, h2, h3, h4⟩ := scanQuad_ordered img .modeWhite hempty
      have h : findContentBounds img =
          ⟨scanForward (fun x => isColRemovable img .modeWhite x) img.width,
           scanForward (fun y => isRowRemovable img .modeWhite y) img.height,
           scanBackward (fun x => isColRemovable img .modeWhite x)
             (scanForward (fun x => isColRemovable img .modeWhite x) img.width) img.width,
           scanBackward (fun y => isRowRemovable img .modeWhite y)
             (scanForward (fun y => isRowRemovable img .modeWhite y) img.height) img.height⟩ := by
        simp only [findContentBounds, hmode]
        rw [if_neg hempty, imageRect_of_le h3 h1]
      rw [h]
      exact ⟨h1, h2, h3, h4⟩

/-- C9 (amended): every margin set computed by `CalculateTrimMargins` has four
non-negative values, and the opposite edges sum to at most the corresponding
image dimension (`Top + Bottom ≤ height`, `Left + Right ≤ width`); the claimed
strict per-edge bound `min(height,width)/2` does not hold in general. -/
theorem c9_margin_bounds (img : GoImage) (hw : 1 ≤ img.width) (hh : 1 ≤ img.height) :
    0 ≤ (CalculateTrimMargins img).Top ∧
    0 ≤ (CalculateTrimMargins img).Bottom ∧
    0 ≤ (CalculateTrimMargins img).Left ∧
    0 ≤ (CalculateTrimMargins img).Right ∧
    (CalculateTrimMargins img).Top + (CalculateTrimMargins img).Bottom ≤ (img.height : Int) ∧
    (CalculateTrimMargins img).Left + (CalculateTrimMargins img).Right ≤ (img.width : Int) := by
  obtain ⟨h1, h2, h3, h4⟩ := findContentBounds_ordered img
  simp only [CalculateTrimMargins]
  refine ⟨by omega, by omega, by omega, by omega, by omega, by omega⟩

/-- C9 counterexample: on the all-black 4×4 image the bottom margin is 4 —
the whole height — which is not below `min(height,width)/2 = 2`; the claimed
invariant fails. -/
theorem c9_half_dimension_counterexample :
    CalculateTrimMargins blackSquare = ⟨0, 4, 0, 4⟩ ∧
    ¬ ((CalculateTrimMargins blackSquare).Bottom
        < min (blackSquare.height : Int) (blackSquare.width : Int) / 2) :=
  ⟨by decide, by decide⟩

/-- C9 witness: the amended bounds at the concrete all-black 4×4 image. -/
theorem c9_margin_witness :
    0 ≤ (CalculateTrimMargins blackSquare).Top ∧
    0 ≤ (CalculateTrimMargins blackSquare).Bottom ∧
    0 ≤ (CalculateTrimMargins blackSquare).Left ∧
    0 ≤ (CalculateTrimMargins blackSquare).Right ∧
    (CalculateTrimMargins blackSquare).Top + (CalculateTrimMargins blackSquare).Bottom
      ≤ (blackSquare.height : Int) ∧
    (CalculateTrimMargins blackSquare).Left + (CalculateTrimMargins blackSquare).Right
      ≤ (blackSquare.width : Int) :=
  c9_margin_bounds blackSquare (by decide) (by decide)

/-- C10 (amended): `findContentBounds` returns the full image bounds only when
no corner classifies as black-ish or white-ish; a tie between non-zero black
and white corner counts does not prevent trimming — the code falls back to
black mode and scans anyway. -/
theorem c10_no_corner_mode_full_bounds (img : GoImage) :
    (blackCornerCount img = 0 → whiteCornerCount img = 0 →
      findContentBounds img = ⟨0, 0, img.width, img.height⟩) ∧
    (blackCornerCount img = whiteCornerCount img → 0 < blackCornerCount img →
      cornerMode img = .modeBlack) := by
  constructor
  · intro hb hw
    have hmode : cornerMode img = .modeNone := by
      unfold cornerMode
      rw [hb, hw]
      rfl
    simp [findContentBounds, hmode]
  · intro heq hpos
    unfold cornerMode
    rw [if_neg (by omega), if_neg (by omega), if_pos (by omega)]

/-- C10 counterexample: the half-black/half-white 6×6 image has a 2-2 tie
between black-ish and white-ish corners, yet `findContentBounds` trims its
black left half instead of returning the full bounds. -/
theorem c10_tie_trims_counterexample :
    blackCornerCount halfSplitImg = 2 ∧
    whiteCornerCount halfSplitImg = 2 ∧
    findContentBounds halfSplitImg = ⟨3, 0, 6, 6⟩ ∧
    findContentBounds halfSplitImg ≠ ⟨0, 0, halfSplitImg.width, halfSplitImg.height⟩ :=
  ⟨by decide, by decide, by decide, by decide⟩

/-- C10 witness: the amended theorem at concrete images — the mid-gray image
(no classified corner) keeps its full bounds, and the tied half-split image
falls back to black mode. -/
theorem c10_corner_witness :
    findContentBounds grayImg = ⟨0, 0, grayImg.width, grayImg.height⟩ ∧
    cornerMode halfSplitImg = .modeBlack :=
  ⟨(c10_no_corner_mode_full_bounds grayImg).1 (by decide) (by decide),
   (c10_no_corner_mode_full_bounds halfSplitImg).2 (by decide) (by decide)⟩

/-- C4 (amended): a failed direction probe does not abort the session —
`capturePages` swallows the probe error and continues the capture loop with the
fallback direction "right" and no detection images. -/
theorem c4_probe_error_falls_back_right (e : GoError) (key : String)
    (act : Option GoError) (cap : Nat → Except GoError GoImage)
    (turn : String → Nat → Option GoError) (delay : Int) (cAt : Option Int)
    (hkey : key ≠ "left") :
    capturePages (.error e) key act cap turn delay cAt
      = capturePagesCore "right" [] act cap turn delay cAt := by
  unfold capturePages
  rw [if_neg hkey]

/-- C4 counterexample: with a target on which neither direction ever changes
the image, the probe does fail with the could-not-detect error, but the session
does not terminate: the capture loop proceeds with the fallback direction,
captures five (identical) content pages, trips benign end detection, and
`capturePages` returns without any error. -/
theorem c4_no_abort_counterexample :
    stuckProbe.result = .error .directionUndetectable ∧
    fallbackRun.err = none ∧
    fallbackRun.pageCount = 5 :=
  ⟨rfl, by decide, by decide⟩

/-- C4 witness: the fallback equation at concrete arguments. -/
theorem c4_fallback_witness :
    capturePages (.error .directionUndetectable) "auto" none
        (fun _ => .ok imgBlack1) turnOk 0 none
      = capturePagesCore "right" [] none (fun _ => .ok imgBlack1) turnOk 0 none :=
  c4_probe_error_falls_back_right .directionUndetectable "auto" none
    (fun _ => .ok imgBlack1) turnOk 0 none (by decide)

/-- C7 (amended): when the baseline and the image captured after the first
forward press differ (similarity below 0.90), the probe still issues all three
forward presses and all three captures before comparing; it then confirms
"right" without probing the reverse direction and keeps all four captured
images as the first pages. -/
theorem c7_probe_three_presses_then_confirm (c : GoImage) (f : Nat → GoImage)
    (pL : Nat → Option GoError) (cL : Nat → Except GoError GoImage)
    (hchange : similarityScore c (f 1) < similarityChangeThreshold) :
    detectPageTurnDirection (.ok c) (fun _ => none) (probeCapOf f) pL cL
      = ⟨.ok ("right", [c, f 1, f 2, f 3]), 3, 3, 0, 0⟩ := by
  have hcond : anyAdjacentBelow similarityChangeThreshold [c, f 1, f 2, f 3] = true := by
    have h1 : anyAdjacentBelow similarityChangeThreshold [c, f 1, f 2, f 3]
        = (decide (similarityScore c (f 1) < similarityChangeThreshold)
            || anyAdjacentBelow similarityChangeThreshold [f 1, f 2, f 3]) := rfl
    rw [h1, decide_eq_true hchange, Bool.true_or]
  have hstep : detectPageTurnDirection (.ok c) (fun _ => none) (probeCapOf f) pL cL
      = if anyAdjacentBelow similarityChangeThreshold [c, f 1, f 2, f 3] then
          ⟨.ok ("right", [c, f 1, f 2, f 3]), 3, 3, 0, 0⟩
        else
          let l := probeSideAux pL cL "failed to press left arrow" "failed to capture left"
            3 1 [f 3] 0 0
          match l.res with
          | .error err => ⟨.error err, 3, 3, l.presses, l.captures⟩
          | .ok leftPaths =>
            if anyAdjacentBelow similarityChangeThreshold leftPaths then
              ⟨.ok ("left", leftPaths), 3, 3, l.presses, l.captures⟩
            else ⟨.error .directionUndetectable, 3, 3, l.presses, l.captures⟩ := rfl
  rw [hstep, hcond]
  exact if_pos rfl

/-- C7 counterexample: with a baseline that already differs from the first
forward capture, the probe still performs 3 forward presses and 3 additional
captures — not exactly 1 — before confirming "right" with all four images. -/
theorem c7_capture_count_counterexample :
    quickProbe.result = .ok ("right", [imgBlack1, imgWhite1, imgWhite1, imgWhite1]) ∧
    quickProbe.rightPresses = 3 ∧
    quickProbe.rightCaptures = 3 ∧
    quickProbe.rightCaptures ≠ 1 :=
  ⟨rfl, rfl, rfl, by decide⟩

/-- C7 witness: the amended theorem at the concrete black-then-white probe. -/
theorem c7_probe_witness :
    detectPageTurnDirection (.ok imgBlack1) (fun _ => none)
        (probeCapOf (fun _ => imgWhite1)) (fun _ => none) (fun _ => .ok imgBlack1)
      = ⟨.ok ("right", [imgBlack1, imgWhite1, imgWhite1, imgWhite1]), 3, 3, 0, 0⟩ :=
  c7_probe_three_presses_then_confirm imgBlack1 (fun _ => imgWhite1)
    (fun _ => none) (fun _ => .ok imgBlack1) (by decide)

/-- Helper: strict pairwise similarity above `t` implies the loop's
non-strict window test. -/
theorem allAdjacentAbove_le (t : ℚ) :
    ∀ l : List GoImage, allAdjacentAbove t l = true → allAdjacentAtLeast t l = true := by
  intro l
  induction l with
  | nil => intro _; rfl
  | cons a rest ih =>
    cases rest with
    | nil => intro _; rfl
    | cons b r =>
      intro h
      have h2 : decide (t < similarityScore a b) = true ∧ allAdjacentAbove t (b :: r) = true := by
        have hstep : allAdjacentAbove t (a :: b :: r)
            = (decide (t < similarityScore a b) && allAdjacentAbove t (b :: r)) := rfl
        rw [hstep] at h
        exact (Bool.and_eq_true _ _).mp h
      have hstep2 : allAdjacentAtLeast t (a :: b :: r)
          = (decide (t ≤ similarityScore a b) && allAdjacentAtLeast t (b :: r)) := rfl
      rw [hstep2, decide_eq_true (le_of_lt (of_decide_eq_true h2.1)), ih h2.2]
      rfl

/-- Helper: the capture-loop iteration after a successful capture, with the
context not yet cancelled, exposed up to the end-of-book test. -/
theorem captureLoop_step_ok (cap : Nat → Except GoError GoImage)
    (turn : String → Nat → Option GoError) (dir : String) (delay : Int)
    (cAt : Option Int) (fuel pageNum : Nat) (now : Int) (shots : List GoImage)
    (allM : List TrimMargins) (img : GoImage)
    (hctx : ctxDone cAt now = false) (hcap : cap pageNum = .ok img) :
    captureLoop cap turn dir delay cAt (fuel + 1) pageNum now shots allM =
      if 5 ≤ (shots ++ [img]).length ∧ endOfBookWindow (shots ++ [img]) = true then
        ⟨pageNum, (shots ++ [img]).take ((shots ++ [img]).length - 5),
         AggregateMinimumMargins
           (if 5 ≤ (allM ++ [CalculateTrimMargins img]).length then
              (allM ++ [CalculateTrimMargins img]).take
                ((allM ++ [CalculateTrimMargins img]).length - 5)
            else allM ++ [CalculateTrimMargins img]),
         (if 5 ≤ (allM ++ [CalculateTrimMargins img]).length then
            (allM ++ [CalculateTrimMargins img]).take
              ((allM ++ [CalculateTrimMargins img]).length - 5)
          else allM ++ [CalculateTrimMargins img]),
         none⟩
      else
        match turn dir pageNum with
        | some e =>
          ⟨pageNum, shots ++ [img],
           AggregateMinimumMargins (allM ++ [CalculateTrimMargins img]),
           allM ++ [CalculateTrimMargins img],
           some (.wrap "failed to turn page after retries" e)⟩
        | none =>
          captureLoop cap turn dir delay cAt fuel (pageNum + 1) (now + delay)
            (shots ++ [img]) (allM ++ [CalculateTrimMargins img]) := by
  rw [captureLoop_succ, hctx]
  rw [if_neg (by decide : ¬((false : Bool) = true)), hcap]

/-- C1 (amended): once the window holds at least 5 images whose four adjacent
similarities all exceed 0.995, the capture loop declares end of book in that
very iteration: it keeps exactly all but the last 5 screenshots (and margins)
and returns with no error.  In the concrete 3-distinct-then-5-identical
scenario the output page sequence is those 3 content images — but the
page-counter value `capturePages` returns (which `ConvertCurrentBook` reports
as the page count) is 8, the number of captures performed, not 3. -/
theorem c1_end_detection_drops_last_five :
    (∀ (cap : Nat → Except GoError GoImage) (turn : String → Nat → Option GoError)
       (dir : String) (delay : Int) (cAt : Option Int) (fuel pageNum : Nat) (now : Int)
       (shots : List GoImage) (allM : List TrimMargins) (img : GoImage),
      cap pageNum = .ok img →
      ctxDone cAt now = false →
      5 ≤ (shots ++ [img]).length →
      allAdjacentAbove endOfBookThreshold
        ((shots ++ [img]).drop ((shots ++ [img]).length - 5)) = true →
      captureLoop cap turn dir delay cAt (fuel + 1) pageNum now shots allM
        = ⟨pageNum, (shots ++ [img]).take ((shots ++ [img]).length - 5),
           AggregateMinimumMargins
             (if 5 ≤ (allM ++ [CalculateTrimMargins img]).length then
                (allM ++ [CalculateTrimMargins img]).take
                  ((allM ++ [CalculateTrimMargins img]).length - 5)
              else allM ++ [CalculateTrimMargins img]),
           (if 5 ≤ (allM ++ [CalculateTrimMargins img]).length then
              (allM ++ [CalculateTrimMargins img]).take
                ((allM ++ [CalculateTrimMargins img]).length - 5)
            else allM ++ [CalculateTrimMargins img]),
           none⟩) ∧
    (endBookRun.pageCount = 8 ∧
     endBookRun.screenshots = [imgBlack1, imgGrayA, imgGrayB] ∧
     endBookRun.err = none) := by
  constructor
  · intro cap turn dir delay cAt fuel pageNum now shots allM img hcap hctx hlen habove
    have hwin : endOfBookWindow (shots ++ [img]) = true :=
      allAdjacentAbove_le endOfBookThreshold _ habove
    rw [captureLoop_step_ok cap turn dir delay cAt fuel pageNum now shots allM img hctx hcap]
    rw [if_pos ⟨hlen, hwin⟩]
  · exact ⟨by decide, by rfl, by decide⟩

/-- C1 counterexample: in the 3-distinct-then-5-identical run the conversion
pipeline reports page count 8 (`ConvertCurrentBook` stores the first component
of the `capturePages` return as `result.PageCount`), while the output page
sequence holds the 3 content images — so "the reported output page count is 3"
fails on the code. -/
theorem c1_reported_count_counterexample :
    convertCapturePhase endBookRun = .ok (8, [imgBlack1, imgGrayA, imgGrayB]) ∧
    endBookRun.pageCount ≠ 3 :=
  ⟨rfl, by decide⟩

/-- C1 witness: the general end-detection step applied to a window of five
identical white screens — the loop stops and drops exactly those five. -/
theorem c1_end_detection_witness :
    captureLoop (fun _ => .ok imgWhite1) turnOk "right" 0 none 1 5 0
        [imgWhite1, imgWhite1, imgWhite1, imgWhite1] []
      = ⟨5, [], AggregateMinimumMargins [CalculateTrimMargins imgWhite1],
         [CalculateTrimMargins imgWhite1], none⟩ :=
  c1_end_detection_drops_last_five.1 (fun _ => .ok imgWhite1) turnOk "right" 0 none 0 5 0
    [imgWhite1, imgWhite1, imgWhite1, imgWhite1] [] imgWhite1 rfl rfl (by decide) (by decide)

/-- Helper for C5: the captured prefix grows one image per page. -/
theorem prefixImgs_succ (img : Nat → GoImage) (k : Nat) :
    prefixImgs img (k + 1) = prefixImgs img k ++ [img (k + 1)] := by
  simp [prefixImgs, List.range_succ]

/-- Helper for C5: the captured prefix after `k` pages has `k` images. -/
theorem prefixImgs_length (img : Nat → GoImage) (k : Nat) :
    (prefixImgs img k).length = k := by
  simp [prefixImgs]

/-- Helper for C5: a window whose final adjacent pair misses the threshold
fails the all-identical test, wherever the window starts. -/
theorem allAdjacentAtLeast_ends_bad (t : ℚ) :
    ∀ (l : List GoImage) (x y : GoImage),
      decide (t ≤ similarityScore x y) = false →
      allAdjacentAtLeast t (l ++ [x, y]) = false := by
  intro l
  induction l with
  | nil =>
    intro x y hbad
    have hstep : allAdjacentAtLeast t ([] ++ [x, y])
        = (decide (t ≤ similarityScore x y) && allAdjacentAtLeast t [y]) := rfl
    rw [hstep, hbad, Bool.false_and]
  | cons a l' ih =>
    intro x y hbad
    cases hl : l' ++ [x, y] with
    | nil => simp at hl
    | cons c t' =>
      have hstep : allAdjacentAtLeast t ((a :: l') ++ [x, y])
          = (decide (t ≤ similarityScore a c) && allAdjacentAtLeast t (c :: t')) := by
        rw [List.cons_append, hl]
        rfl
      rw [hstep, ← hl, ih x y hbad, Bool.and_false]

/-- Helper for C5: the end-of-book window test fails whenever the last two
screenshots miss the threshold. -/
theorem endOfBookWindow_ends_bad (l : List GoImage) (x y : GoImage)
    (hbad : decide (endOfBookThreshold ≤ similarityScore x y) = false) :
    endOfBookWindow (l ++ [x, y]) = false := by
  unfold endOfBookWindow
  have hk : (l ++ [x, y]).length - 5 ≤ l.length := by simp
  rw [List.drop_append_of_le_length hk]
  exact allAdjacentAtLeast_ends_bad endOfBookThreshold (l.drop ((l ++ [x, y]).length - 5)) x y hbad

/-- Helper for C5: with captures that always succeed on an ever-changing
stream, page turns that always succeed and no cancellation, the loop burns all
its fuel: it returns the page-limit error while retaining every captured
screenshot. -/
theorem captureLoop_never_ends (img : Nat → GoImage)
    (turn : String → Nat → Option GoError) (dir : String) (delay : Int)
    (hsim : ∀ n, similarityScore (img n) (img (n + 1)) < endOfBookThreshold)
    (hturn : ∀ d n, turn d n = none) :
    ∀ (fuel pageNum : Nat) (now : Int) (allM : List TrimMargins), 1 ≤ pageNum →
      (captureLoop (fun n => .ok (img n)) turn dir delay none fuel pageNum now
          (prefixImgs img (pageNum - 1)) allM).err = some (.pageLimitReached 1000) ∧
      (captureLoop (fun n => .ok (img n)) turn dir delay none fuel pageNum now
          (prefixImgs img (pageNum - 1)) allM).screenshots
        = prefixImgs img (pageNum - 1 + fuel) ∧
      (captureLoop (fun n => .ok (img n)) turn dir delay none fuel pageNum now
          (prefixImgs img (pageNum - 1)) allM).pageCount = pageNum - 1 + fuel := by
  intro fuel
  induction fuel with
  | zero =>
    intro pageNum now allM hpg
    exact ⟨rfl, rfl, rfl⟩
  | succ f ih =>
    intro pageNum now allM hpg
    rw [captureLoop_step_ok (fun n => .ok (img n)) turn dir delay none f pageNum now
      (prefixImgs img (pageNum - 1)) allM (img pageNum) rfl rfl]
    have hshots : prefixImgs img (pageNum - 1) ++ [img pageNum] = prefixImgs img pageNum := by
      have h1 : pageNum - 1 + 1 = pageNum := by omega
      rw [← h1, prefixImgs_succ, h1]
    rw [hshots]
    have hcond : ¬ (5 ≤ (prefixImgs img pageNum).length
        ∧ endOfBookWindow (prefixImgs img pageNum) = true) := by
      by_cases hp2 : 2 ≤ pageNum
      · have hsplit : prefixImgs img pageNum
            = prefixImgs img (pageNum - 2) ++ [img (pageNum - 1), img pageNum] := by
          conv_lhs => rw [show pageNum = pageNum - 2 + 1 + 1 from by omega]
          rw [prefixImgs_succ, prefixImgs_succ]
          rw [show pageNum - 2 + 1 = pageNum - 1 from by omega]
          rw [show pageNum - 1 + 1 = pageNum from by omega]
          simp [List.append_assoc]
        have hsim2 : similarityScore (img (pageNum - 1)) (img pageNum) < endOfBookThreshold := by
          have := hsim (pageNum - 1)
          rwa [show pageNum - 1 + 1 = pageNum from by omega] at this
        have hwinf : endOfBookWindow (prefixImgs img pageNum) = false := by
          rw [hsplit]
          exact endOfBookWindow_ends_bad (prefixImgs img (pageNum - 2))
            (img (pageNum - 1)) (img pageNum) (decide_eq_false (not_le.mpr hsim2))
        intro hcontra
        rw [hwinf] at hcontra
        exact Bool.false_ne_true hcontra.2
      · have hp1 : pageNum = 1 := by omega
        intro hcontra
        have h5 := hcontra.1
        rw [hp1, prefixImgs_length] at h5
        omega
    rw [if_neg hcond, hturn dir pageNum]
    obtain ⟨ih1, ih2, ih3⟩ :=
      ih (pageNum + 1) (now + delay) (allM ++ [CalculateTrimMargins (img pageNum)]) (by omega)
    have hidx : pageNum - 1 + (f + 1) = pageNum + 1 - 1 + f := by omega
    rw [hidx]
    exact ⟨ih1, ih2, ih3⟩

/-- Helper for C5: adjacent images of the alternating stream are never
similar enough for end detection. -/
theorem alternatingImg_adjacent (n : Nat) :
    similarityScore (alternatingImg n) (alternatingImg (n + 1)) < endOfBookThreshold := by
  rcases Nat.mod_two_eq_zero_or_one n with h | h
  · unfold alternatingImg
    rw [if_pos h, if_neg (by omega : ¬ ((n + 1) % 2 = 0))]
    decide
  · unfold alternatingImg
    rw [if_neg (by omega : ¬ (n % 2 = 0)), if_pos (by omega : (n + 1) % 2 = 0)]
    decide

/-- Helper for C5: step 8 of `ConvertCurrentBook` wraps any capture error and
drops the partial outcome. -/
theorem convertCapturePhase_err (out : CaptureOutcome) (e : GoError)
    (h : out.err = some e) :
    convertCapturePhase out = .error (.wrap "failed to capture pages" e) := by
  unfold convertCapturePhase
  rw [h]

/-- C5 (amended): when no five-image window is ever near-identical and every
capture and page turn succeeds, the capture loop stops at the hard ceiling of
1000 pages with the "reached maximum page limit" error instead of looping
forever, and `capturePages` returns the 1000 captured pages alongside that
error — but `ConvertCurrentBook` (step 8) treats the error as fatal and
discards the partial results instead of surfacing them with a warning. -/
theorem c5_page_limit_partial_results_discarded (img : Nat → GoImage)
    (turn : String → Nat → Option GoError) (delay : Int)
    (probe : Except GoError (String × List GoImage))
    (hsim : ∀ n, similarityScore (img n) (img (n + 1)) < endOfBookThreshold)
    (hturn : ∀ d n, turn d n = none) :
    (capturePages probe "left" none (fun n => .ok (img n)) turn delay none).err
      = some (.pageLimitReached 1000) ∧
    (capturePages probe "left" none (fun n => .ok (img n)) turn delay none).screenshots.length
      = 1000 ∧
    (capturePages probe "left" none (fun n => .ok (img n)) turn delay none).pageCount = 1000 ∧
    convertCapturePhase (capturePages probe "left" none (fun n => .ok (img n)) turn delay none)
      = .error (.wrap "failed to capture pages" (.pageLimitReached 1000)) := by
  have hrun : capturePages probe "left" none (fun n => .ok (img n)) turn delay none
      = captureLoop (fun n => .ok (img n)) turn "left" delay none 1000 1 0
          (prefixImgs img 0) [] := by
    unfold capturePages capturePagesCore
    rw [if_pos rfl]
    rfl
  obtain ⟨h1, h2, h3⟩ :=
    captureLoop_never_ends img turn "left" delay hsim hturn 1000 1 0 [] (by omega)
  rw [hrun]
  refine ⟨h1, ?_, h3, ?_⟩
  · rw [h2, prefixImgs_length]
  · exact convertCapturePhase_err _ _ h1

/-- C5 counterexample: in the alternating-stream run the loop does capture 1000
pages before hitting the ceiling, yet the conversion pipeline surfaces only the
wrapped fatal error — the partial results are discarded, not returned with a
warning. -/
theorem c5_partial_results_counterexample :
    limitRun.screenshots.length = 1000 ∧
    convertCapturePhase limitRun
      = .error (.wrap "failed to capture pages" (.pageLimitReached 1000)) := by
  obtain ⟨h1, h2, h3⟩ := captureLoop_never_ends alternatingImg turnOk "left" 0
    alternatingImg_adjacent (fun _ _ => rfl) 1000 1 0 [] (by omega)
  have hnil : prefixImgs alternatingImg (1 - 1) = ([] : List GoImage) := rfl
  rw [hnil] at h1 h2
  have hrun : limitRun = captureLoop (fun n => .ok (alternatingImg n)) turnOk "left" 0 none
      1000 1 0 [] [] := by
    unfold limitRun capturePages capturePagesCore
    rw [if_pos rfl]
  rw [← hrun] at h1 h2
  constructor
  · rw [h2, prefixImgs_length]
  · exact convertCapturePhase_err limitRun (.pageLimitReached 1000) h1

/-- C5 witness: the amended theorem at the concrete alternating stream. -/
theorem c5_page_limit_witness :
    limitRun.err = some (.pageLimitReached 1000) ∧
    limitRun.screenshots.length = 1000 ∧
    limitRun.pageCount = 1000 ∧
    convertCapturePhase limitRun
      = .error (.wrap "failed to capture pages" (.pageLimitReached 1000)) :=
  c5_page_limit_partial_results_discarded alternatingImg turnOk 0 (.error (.msg "unused"))
    alternatingImg_adjacent (fun _ _ => rfl)
